import Mathlib

/-!
Verification of the packet multiplexing core of a QUIC proxy for the
Minecraft protocol (version 765), against a shallow embedding of the
source.  Machine integers are represented with `Nat`/`Int` plus explicit
reduction modulo the word size; fallible operations return `Except`.
Floating point fields (`f32`/`f64` coordinates and angles) are idealised
as rationals; the theorems that touch them are evaluated only at inputs
where every intermediate floating computation in the source is exact,
and each such place is noted.
-/

namespace MCQuic

/-! ## Machine integer helpers

`sign32 u` reinterprets the 32-bit pattern `u` (a natural number below
`2^32`) as a signed `i32`.  `wrap32 v` is the `as i32` cast of a wider
signed value: reduce modulo `2^32` into the range `[-2^31, 2^31)`.
`wrap64` is the corresponding `as i64`/wrapping arithmetic on 64 bits.
Arithmetic right shift on a signed integer is floor division, which for
a positive divisor coincides with Euclidean division, so shifts are
written as Euclidean division by a power of two. -/

def sign32 (u : Nat) : Int :=
  if u < 2 ^ 31 then (u : Int) else (u : Int) - 2 ^ 32

def wrap32 (v : Int) : Int :=
  (v + 2 ^ 31) % 2 ^ 32 - 2 ^ 31

def wrap64 (v : Int) : Int :=
  (v + 2 ^ 63) % 2 ^ 64 - 2 ^ 63

/-- The `u32` bit pattern of an `i32` value (the `bytemuck::cast` in
`Encoder::write_var_int`). -/
def u32OfI32 (x : Int) : Nat :=
  (x % 2 ^ 32).toNat

/-! ## Decode errors (`src/protocol/decoder.rs`, `DecodeError`)

Only the variants reached by the embedded operations are modelled.  The
`usize`/`i32` conversion failures (`TryFromIntError`) are `intConversion`;
`other` stands for the `anyhow` wrapper used by the codecs for the
resource-bound "length exceeds maximum" bail-outs, recorded with the
offending length. -/

inductive DecodeError where
  | endOfStream (needed : Nat)
  | invalidBool (b : Nat)
  | varIntTooLong
  | stringTooLong
  | intConversion
  deriving DecidableEq, Repr

/-! ## VarInt (`Encoder::write_var_int`, `Decoder::read_var_int_with_size`)

Bytes are natural numbers below 256.  The writer loops on the `u32` bit
pattern of the input, emitting seven bits per byte with a continuation
bit; the reader mirrors the source loop, including the `overflowing_shl`
by `7 * num_read` modulo 32 and the too-long check performed after the
byte has been read and OR-ed in. -/

def writeVarIntAux (u : Nat) : List Nat :=
  if u < 128 then [u] else (u % 128 + 128) :: writeVarIntAux (u / 128)
  decreasing_by exact Nat.div_lt_self (by omega) (by omega)

def writeVarInt (x : Int) : List Nat :=
  writeVarIntAux (u32OfI32 x)

/-- Number of bytes `write_var_int` emits (`var_int_size` in
`src/protocol/vanilla_codec.rs`). -/
def varIntSize (x : Int) : Nat :=
  (writeVarInt x).length

def readVarIntAux : List Nat → Nat → Nat → Except DecodeError (Int × List Nat)
  | [], _, _ => .error (.endOfStream 1)
  | b :: rest, numRead, acc =>
    let acc' := acc ||| (b % 128) * 2 ^ (7 * numRead % 32) % 2 ^ 32
    if numRead + 1 > 5 then .error .varIntTooLong
    else if b % 256 < 128 then .ok (sign32 acc', rest)
    else readVarIntAux rest (numRead + 1) acc'

/-- Models `Decoder::read_var_int` (and `read_var_int_with_size` up to the
byte count, which is recoverable as the length difference): returns the
decoded `i32` and the unconsumed remainder of the buffer. -/
def readVarInt (bytes : List Nat) : Except DecodeError (Int × List Nat) :=
  readVarIntAux bytes 0 0

/-! ## Positions (`src/position.rs`) -/

structure ChunkPosition where
  x : Int
  z : Int
  deriving DecidableEq, Repr

structure BlockPosition where
  x : Int
  y : Int
  z : Int
  deriving DecidableEq, Repr

/-- `BlockPosition::chunk`: `rem_euclid(16)` on the x and z block
coordinates (the Euclidean `%` on `Int` is exactly Rust's `rem_euclid` for a
positive modulus). -/
def BlockPosition.chunk (p : BlockPosition) : ChunkPosition :=
  { x := p.x % 16, z := p.z % 16 }

/-- Models `Decoder::read_block_position` applied to the `i64` obtained
from `read_i64` (the value `v` satisfies `-2^63 ≤ v < 2^63`).
In the source:
`x = (value >> 38) as i32` (arithmetic shift = floor division, which for
a positive divisor is the Euclidean `/` on `Int`);
`y = (value & 0xFFF) as i32` (the low 12 bits of the two's-complement
pattern, i.e. `value % 4096` — note: no sign extension);
`z = (value << 26 >> 38) as i32` (wrapping left shift on `i64`, then
arithmetic right shift). -/
def readBlockPosition (value : Int) : BlockPosition :=
  { x := wrap32 (value / 2 ^ 38)
    y := wrap32 (value % 4096)
    z := wrap32 (wrap64 (value * 2 ^ 26) / 2 ^ 38) }

/-- Modelled from the spec: the repository has no block-position encoder
under `src/` (only the decoder), so the packing follows the spec's words:
a 64-bit signed integer with x in the high 26 bits, z in the middle
26 bits, y in the low 12 bits.  Each field contributes its low bits
(reduction modulo the field width), and the packed pattern is reinterpreted as
a signed `i64`. -/
def packBlockPosition (x y z : Int) : Int :=
  wrap64 (x % 2 ^ 26 * 2 ^ 38 + z % 2 ^ 26 * 2 ^ 12 + y % 2 ^ 12)

/-- `UpdateSectionBlocks::chunk_position`
(`src/protocol/packet/server/play.rs`): extracts the chunk x and z from
the packed chunk-section position
(`x = (csp >> 42) as i32`, `z = (csp << 22 >> 42) as i32`). -/
def sectionChunkPosition (chunkSectionPosition : Int) : ChunkPosition :=
  { x := wrap32 (chunkSectionPosition / 2 ^ 42)
    z := wrap32 (wrap64 (chunkSectionPosition * 2 ^ 22) / 2 ^ 42) }

/-- Modelled from the spec: a chunk-section position packs chunk x and
chunk z each in 22 bits (sign-extended), with the section y in the low
20 bits; the encoder is not part of `src/`. -/
def packSectionPosition (cx cz y : Int) : Int :=
  wrap64 (cx % 2 ^ 22 * 2 ^ 42 + cz % 2 ^ 22 * 2 ^ 20 + y % 2 ^ 20)

/-! ## Angles (`Encoder::write_angle`, `Decoder::read_angle`)

The source works in `f32`; the embedding idealises the arithmetic over
the rationals.  `f32::round` rounds half away from zero; the `as u8`
cast saturates to `[0, 255]`.  Every theorem below evaluates these
definitions only at inputs for which all the `f32` intermediates in the
source are exactly representable, so the idealisation agrees with the
code there. -/

/-- Round half away from zero (`f32::round`). -/
def roundHalfAway (q : ℚ) : Int :=
  if q < 0 then -⌊-q + 1 / 2⌋ else ⌊q + 1 / 2⌋

/-- Saturating `as u8` cast of an integer value. -/
def satU8 (i : Int) : Nat :=
  (min 255 (max 0 i)).toNat

/-- `Encoder::write_angle`: `(degrees / 360.0 * u8::MAX as f32).round() as u8`. -/
def writeAngle (degrees : ℚ) : Nat :=
  satU8 (roundHalfAway (degrees / 360 * 255))

/-- `Decoder::read_angle`: `(fixed as f32 / u8::MAX as f32) * 360.` -/
def readAngle (fixed : Nat) : ℚ :=
  (fixed : ℚ) / 255 * 360

/-! ## Codec errors

`CodecError` collects the `anyhow` error paths of the two codecs:
a wrapped `DecodeError`, the resource-bound rejection of frames whose
declared length exceeds `BUFFER_LIMIT`, the `i32`/`usize` conversion
failures, the invalid-flags rejection of the optimized codec, and a
failure of the external compression library. -/

/-- `BUFFER_LIMIT` in `src/protocol.rs`: 1 MiB. -/
def BUFFER_LIMIT : Nat := 1024 * 1024

inductive CodecError where
  | decode (e : DecodeError)
  | lengthExceedsMaximum (length : Nat)
  | intConversion
  | invalidFlags (bits : Nat)
  | compressionFailed
  deriving DecidableEq, Repr

/-! ## Vanilla codec (`src/protocol/vanilla_codec.rs`)

The codec is generic in the packet type: the embedding takes the typed
packet's plain encoding (`packet.encode(...)`, a byte list) as input on
the send side and a packet decoder function `pd` as a parameter on the
receive side.  zlib itself is external; the compressor and decompressor
are parameters (`deflate`, `inflate`).  Encryption is modelled in its
disabled state (`encryption_state = None`, under which `encode_packet`
and `give_data` leave the bytes unchanged). -/

/-- Models `VanillaCodec::encode_packet` with compression state
`compression` (`none` = disabled, `some threshold` = enabled) and
encryption disabled, applied to the packet's plain encoding `plain`.
Mirrors the source exactly, including the compression branch writing
only the outer length VarInt into `buf`: the data-length VarInt and the
bytes of `compressedData` are never appended there. -/
def encodePacketVanilla (compression : Option Nat) (deflate : List Nat → List Nat)
    (plain : List Nat) : Except CodecError (List Nat) :=
  if plain.length ≥ 2 ^ 31 then .error .intConversion
  else
    match compression with
    | some threshold =>
      let p : Int × List Nat :=
        if plain.length ≥ threshold then ((plain.length : Int), deflate plain)
        else (0, plain)
      let dataLength := p.1
      let compressedData := p.2
      if compressedData.length ≥ 2 ^ 31 then .error .intConversion
      else .ok (writeVarInt ((varIntSize dataLength : Int) + compressedData.length))
    | none => .ok (writeVarInt plain.length ++ plain)

/-- `Decoder::consume_slice(n)`: the first `n` bytes and the rest, or
`EndOfStream` if fewer than `n` bytes remain. -/
def consumeSlice (n : Nat) (buf : List Nat) : Except DecodeError (List Nat × List Nat) :=
  if n ≤ buf.length then .ok (buf.take n, buf.drop n) else .error (.endOfStream n)

/-- Models `VanillaCodec::decode_packet` on read buffer `readBuffer`,
with `compression` the enabled/disabled compression state, `inflate`
the zlib decompressor (already bounded by the 1 MiB `take`), and `pd`
the typed packet decoder.  Returns `ok (none, buffer)` for the silent
need-more outcome (buffer unchanged), `ok (some packet, buffer')` after
draining the frame, and an error otherwise.  The leading length VarInt
is read with `read_var_int()?`, so its failures (including end of
stream) propagate as errors. -/
def decodePacketVanilla {α : Type} (compression : Bool)
    (inflate : List Nat → Except CodecError (List Nat))
    (pd : List Nat → Except DecodeError α)
    (readBuffer : List Nat) : Except CodecError (Option α × List Nat) :=
  match readVarInt readBuffer with
  | .error e => .error (.decode e)
  | .ok (length, afterLength) =>
    if length < 0 then .error .intConversion
    else
      let lengthNat := length.toNat
      let totalBytes := lengthNat + varIntSize (wrap32 length)
      if lengthNat > BUFFER_LIMIT then .error (.lengthExceedsMaximum lengthNat)
      else
        match consumeSlice lengthNat afterLength with
        | .error (.endOfStream _) => .ok (none, readBuffer)
        | .error e => .error (.decode e)
        | .ok (packetContents, _) =>
          let plainData : Except CodecError (List Nat) :=
            if compression then
              match readVarInt packetContents with
              | .error e => .error (.decode e)
              | .ok (uncompressedLength, rest) =>
                if uncompressedLength < 0 then .error .intConversion
                else if uncompressedLength.toNat = 0 then .ok rest
                else inflate rest
            else .ok packetContents
          match plainData with
          | .error e => .error e
          | .ok plain =>
            match pd plain with
            | .error e => .error (.decode e)
            | .ok packet => .ok (some packet, readBuffer.drop totalBytes)

/-! ## Optimized codec (`src/protocol/optimized_codec.rs`)

Per-stream QUIC framing: VarInt rest-length, one flag byte (bit 0 =
compressed), payload.  zstd is external and appears as the `compress`
and `decompress` parameters; the typed packet codec is a parameter as
for the vanilla codec. -/

/-- Models `OptimizedCodec::encode_packet` on the packet's plain
encoding: compress when the plain length reaches the fixed threshold of
128 bytes, prepend the flag byte and the VarInt length of
(flag byte + payload). -/
def encodePacketOptimized (compress : List Nat → List Nat)
    (plain : List Nat) : Except CodecError (List Nat) :=
  let shouldCompress := decide (plain.length ≥ 128)
  let flags := if shouldCompress then 1 else 0
  let encodedData := if shouldCompress then compress plain else plain
  if encodedData.length + 1 ≥ 2 ^ 31 then .error .intConversion
  else .ok (writeVarInt ((encodedData.length : Int) + 1) ++ flags :: encodedData)

/-- Models `OptimizedCodec::decode_packet`: reads the length VarInt with
`read_var_int()?` (failures propagate as errors), rejects lengths above
`BUFFER_LIMIT`, returns the silent need-more outcome when fewer than
`length` bytes follow, validates the flag byte, and decompresses or
passes through before decoding the typed packet. -/
def decodePacketOptimized {α : Type}
    (decompress : List Nat → Except CodecError (List Nat))
    (pd : List Nat → Except DecodeError α)
    (readBuffer : List Nat) : Except CodecError (Option α × List Nat) :=
  match readVarInt readBuffer with
  | .error e => .error (.decode e)
  | .ok (length, afterLength) =>
    if length < 0 then .error .intConversion
    else
      let lengthNat := length.toNat
      if lengthNat > BUFFER_LIMIT then .error (.lengthExceedsMaximum lengthNat)
      else
        let totalBytesRead := varIntSize (wrap32 length) + lengthNat
        if afterLength.length < lengthNat then .ok (none, readBuffer)
        else
          let data := afterLength.take lengthNat
          match data with
          | [] => .error (.decode (.endOfStream 1))
          | flags :: body =>
            if flags % 256 > 1 then .error (.invalidFlags (flags % 256))
            else
              let plain : Except CodecError (List Nat) :=
                if flags % 256 = 1 then decompress body else .ok body
              match plain with
              | .error e => .error e
              | .ok plainBytes =>
                match pd plainBytes with
                | .error e => .error (.decode e)
                | .ok packet => .ok (some packet, readBuffer.drop totalBytesRead)

/-! ## Sequenced datagrams (`src/sequence.rs`)

A `Sequence` holds a wrapping 64-bit send counter and the high-water
receive ordinal (`newest_received`); both start at zero.  `SequenceKey`
identifies a sequence. -/

/-- `EntityId` (`src/entity_id.rs`): a wrapper around an `i32`. -/
structure EntityId where
  id : Int
  deriving DecidableEq, Repr

inductive SequenceKey where
  | entityPosition (id : EntityId)
  | entityVelocity (id : EntityId)
  | thePlayerPosition
  deriving DecidableEq, Repr

structure Sequence where
  sendCounter : Nat
  newestReceived : Nat
  deriving DecidableEq, Repr

/-- `Sequence::new()`. -/
def Sequence.new : Sequence :=
  { sendCounter := 0, newestReceived := 0 }

/-- `Sequence::next_send_ordinal`: returns the current counter and
increments it with 64-bit wrap-around. -/
def Sequence.nextSendOrdinal (s : Sequence) : Nat × Sequence :=
  (s.sendCounter, { s with sendCounter := (s.sendCounter + 1) % 2 ^ 64 })

/-- `Sequence::receive_packet`: keep (`true`) iff the ordinal is at
least the high-water mark, updating the mark; otherwise drop
(`false`). -/
def Sequence.receivePacket (s : Sequence) (packetOrdinal : Nat) : Bool × Sequence :=
  if packetOrdinal ≥ s.newestReceived then
    (true, { s with newestReceived := packetOrdinal })
  else
    (false, s)

/-- The per-key sequence table of `Sequences` (`get_sequence` creates a
fresh `Sequence::new()` on miss, so a total function with `Sequence.new`
as the initial value at every key is an exact model of the lazy
cache). -/
def SequenceTable : Type := SequenceKey → Sequence

/-- One iteration of `Sequences::recv_packet` for an arriving datagram
with the given header: look up the key's sequence, apply
`receive_packet`, and store the updated sequence.  The boolean is
whether the packet is delivered. -/
def recvDatagram (table : SequenceTable) (key : SequenceKey) (ordinal : Nat) :
    Bool × SequenceTable :=
  let r := (table key).receivePacket ordinal
  (r.1, fun k => if k = key then r.2 else table k)

/-- The ordinals delivered when the datagrams of one key arrive in the
given order, starting from sequence state `s` (the receive loop of
`Sequences::recv_packet` restricted to a single key). -/
def deliveredOrdinals (s : Sequence) : List Nat → List Nat
  | [] => []
  | o :: rest =>
    let r := s.receivePacket o
    if r.1 then o :: deliveredOrdinals r.2 rest else deliveredOrdinals r.2 rest

/-! ## Entity positions (`src/position.rs`)

`EntityPosition` carries `f64` coordinates and `f32` yaw/pitch,
idealised over the rationals; `convert_delta` divides the `i16` delta
by 4096. -/

structure EntityPosition where
  x : ℚ
  y : ℚ
  z : ℚ
  yaw : ℚ
  pitch : ℚ
  deriving DecidableEq, Repr

structure EntityPositionDelta where
  dx : Int
  dy : Int
  dz : Int
  deriving DecidableEq, Repr

def convertDelta (delta : Int) : ℚ :=
  (delta : ℚ) / 4096

/-- `Add<EntityPositionDelta> for EntityPosition`: the deltas are added
at scale 1/4096, yaw and pitch carry over. -/
def EntityPosition.addDelta (p : EntityPosition) (d : EntityPositionDelta) : EntityPosition :=
  { x := p.x + convertDelta d.dx
    y := p.y + convertDelta d.dy
    z := p.z + convertDelta d.dz
    yaw := p.yaw
    pitch := p.pitch }

/-! ## The gateway-to-client Play packet catalog
(`src/protocol/packet/server/play.rs`, enum `Packet`)

One constructor per wire identifier 0x00–0x74, in source order.  The
variants whose fields the multiplexer inspects carry those fields
(ids and `i16` components as `Int`, coordinates and angles as `ℚ`,
`uuid` as `Nat`); every other variant holds its opaque trailing byte
blob.  The six variants routed to per-entity streams are destructured
with an `entity_id` field by `AllocateStream<side::Server>` in
`src/stream_allocation.rs`, so they are modelled with that field
(their struct declarations in `play.rs` list only the opaque blob). -/

inductive ServerPlayPacket where
  | bundleDelimiter (ignoredData : List Nat)
  | spawnEntity (entityId : Int) (uuid : Nat) (kind : Int) (x y z : ℚ)
      (pitch yaw headYaw : ℚ) (data : Int) (velocityX velocityY velocityZ : Int)
  | spawnExperienceOrb (entityId : Int) (x y z : ℚ) (amount : Nat)
  | entityAnimation (entityId : Int) (ignoredData : List Nat)
  | awardStatistics (ignoredData : List Nat)
  | acknowledgeBlockChange (ignoredData : List Nat)
  | setBlockDestroyStage (ignoredData : List Nat)
  | blockEntityData (ignoredData : List Nat)
  | blockAction (ignoredData : List Nat)
  | blockUpdate (position : BlockPosition) (ignoredData : List Nat)
  | bossBar (ignoredData : List Nat)
  | changeDifficulty (ignoredData : List Nat)
  | chunkBatchFinished (ignoredData : List Nat)
  | chunkBatchStart (ignoredData : List Nat)
  | chunkBiomes (ignoredData : List Nat)
  | clearTitles (ignoredData : List Nat)
  | commandSuggestions (ignoredData : List Nat)
  | commands (ignoredData : List Nat)
  | closeContainer (ignoredData : List Nat)
  | setContainerContents (ignoredData : List Nat)
  | setContainerProperty (ignoredData : List Nat)
  | setContainerSlot (ignoredData : List Nat)
  | setCooldown (ignoredData : List Nat)
  | chatSuggestions (ignoredData : List Nat)
  | pluginMessage (ignoredData : List Nat)
  | damageEvent (entityId : Int) (ignoredData : List Nat)
  | deleteMessage (ignoredData : List Nat)
  | disconnect (ignoredData : List Nat)
  | disguisedChatMessage (ignoredData : List Nat)
  | entityEvent (entityId : Int) (ignoredData : List Nat)
  | explosion (ignoredData : List Nat)
  | unloadChunk (chunkZ chunkX : Int)
  | gameEvent (ignoredData : List Nat)
  | openHorseScreen (ignoredData : List Nat)
  | hurtAnimation (entityId : Int) (ignoredData : List Nat)
  | initializeWorldBorder (ignoredData : List Nat)
  | keepAlive (ignoredData : List Nat)
  | chunkAndLightData (chunkX chunkZ : Int) (ignoredData : List Nat)
  | worldEvent (ignoredData : List Nat)
  | particle (ignoredData : List Nat)
  | updateLight (chunkX chunkZ : Int) (ignoredData : List Nat)
  | login (ignoredData : List Nat)
  | mapData (ignoredData : List Nat)
  | merchantOffers (ignoredData : List Nat)
  | updateEntityPosition (entityId : Int) (deltaX deltaY deltaZ : Int) (onGround : Bool)
  | updateEntityPositionAndRotation (entityId : Int) (deltaX deltaY deltaZ : Int)
      (yaw pitch : ℚ) (onGround : Bool)
  | updateEntityRotation (entityId : Int) (yaw pitch : ℚ) (onGround : Bool)
  | moveVehicle (ignoredData : List Nat)
  | openBook (ignoredData : List Nat)
  | openScreen (ignoredData : List Nat)
  | openSignEditor (ignoredData : List Nat)
  | ping (ignoredData : List Nat)
  | pingResponse (ignoredData : List Nat)
  | placeGhostRecipe (ignoredData : List Nat)
  | playerAbilities (ignoredData : List Nat)
  | playerChatMessage (ignoredData : List Nat)
  | endCombat (ignoredData : List Nat)
  | enterCombat (ignoredData : List Nat)
  | combatDeath (ignoredData : List Nat)
  | playerInfoRemove (ignoredData : List Nat)
  | playerInfoUpdate (ignoredData : List Nat)
  | lookAt (ignoredData : List Nat)
  | synchronizePlayerPosition (ignoredData : List Nat)
  | updateRecipeBook (ignoredData : List Nat)
  | removeEntities (entities : List Int)
  | removeEntityEffect (ignoredData : List Nat)
  | resetScore (ignoredData : List Nat)
  | removeResourcePack (ignoredData : List Nat)
  | addResourcePack (ignoredData : List Nat)
  | respawn (ignoredData : List Nat)
  | setHeadRotation (entityId : Int) (ignoredData : List Nat)
  | updateSectionBlocks (chunkSectionPosition : Int) (ignoredData : List Nat)
  | selectAdvancementsTab (ignoredData : List Nat)
  | serverData (ignoredData : List Nat)
  | setActionBarText (ignoredData : List Nat)
  | setWorldBorderCenter (ignoredData : List Nat)
  | setWorldBorderLerpSize (ignoredData : List Nat)
  | setWorldBorderSize (ignoredData : List Nat)
  | setWorldBorderWarningDelay (ignoredData : List Nat)
  | setWorldBorderWarningDistance (ignoredData : List Nat)
  | setCamera (ignoredData : List Nat)
  | setHeldItem (ignoredData : List Nat)
  | setCenterChunk (ignoredData : List Nat)
  | setViewDistance (ignoredData : List Nat)
  | setDefaultSpawnPosition (ignoredData : List Nat)
  | displayObjective (ignoredData : List Nat)
  | setEntityMetadata (ignoredData : List Nat)
  | linkEntities (ignoredData : List Nat)
  | setEntityVelocity (entityId : Int) (velocityX velocityY velocityZ : Int)
  | setEquipment (ignoredData : List Nat)
  | setExperience (ignoredData : List Nat)
  | setHealth (ignoredData : List Nat)
  | updateObjectives (ignoredData : List Nat)
  | setPassengers (ignoredData : List Nat)
  | updateTeams (ignoredData : List Nat)
  | updateScore (ignoredData : List Nat)
  | setSimulationDistance (ignoredData : List Nat)
  | setSubtitleText (ignoredData : List Nat)
  | updateTime (ignoredData : List Nat)
  | setTitleText (ignoredData : List Nat)
  | setTitleAnimationTimes (ignoredData : List Nat)
  | entitySoundEffect (ignoredData : List Nat)
  | soundEffect (ignoredData : List Nat)
  | startConfiguration (ignoredData : List Nat)
  | stopSound (ignoredData : List Nat)
  | systemChatMessage (ignoredData : List Nat)
  | setTabListHeaderAndFooter (ignoredData : List Nat)
  | tagQueryResponse (ignoredData : List Nat)
  | pickUpItem (ignoredData : List Nat)
  | teleportEntity (entityId : Int) (x y z : ℚ) (yaw pitch : ℚ) (onGround : Bool)
  | setTickingState (ignoredData : List Nat)
  | stepTick (ignoredData : List Nat)
  | updateAdvancements (ignoredData : List Nat)
  | updateAttributes (ignoredData : List Nat)
  | entityEffect (entityId : Int) (ignoredData : List Nat)
  | updateRecipes (ignoredData : List Nat)
  | updateTags (ignoredData : List Nat)

/-! ## Packet translator (`src/packet_translation.rs`)

`PacketTranslator` keeps the last received absolute position per entity
(`AHashMap<EntityId, EntityPosition>`, modelled as a total function into
`Option`).  `translate_packet` returns the translated packet, or `none`
when no translation is required; the embedding additionally returns the
updated table and the number of `tracing::warn!` lines emitted by
`entity_position` lookups that missed. -/

structure PacketTranslator where
  entityPositions : EntityId → Option EntityPosition

/-- `PacketTranslator::new()`. -/
def PacketTranslator.new : PacketTranslator :=
  { entityPositions := fun _ => none }

/-- `register_entity_position`: insert or overwrite. -/
def PacketTranslator.registerEntityPosition (t : PacketTranslator)
    (entityId : EntityId) (position : EntityPosition) : PacketTranslator :=
  { entityPositions := fun i => if i = entityId then some position else t.entityPositions i }

/-- `unload_entity`: remove. -/
def PacketTranslator.unloadEntity (t : PacketTranslator) (entityId : EntityId) :
    PacketTranslator :=
  { entityPositions := fun i => if i = entityId then none else t.entityPositions i }

/-- `clear_entities`: remove everything. -/
def PacketTranslator.clearEntities (_t : PacketTranslator) : PacketTranslator :=
  { entityPositions := fun _ => none }

/-- Models `TranslatePacket<side::Server>::translate_packet`.  The first
component is the source's return value (`Some` translated packet or
`None`), the second the translator state afterwards, the third the
number of unknown-entity warnings logged.  Mirrors the source shape: a
rotation-refreshing prelude for the two rotation-bearing update packets
(which looks the position up, warning on a miss), then the main match. -/
def PacketTranslator.translatePacket (t : PacketTranslator) (packet : ServerPlayPacket) :
    Option ServerPlayPacket × PacketTranslator × Nat :=
  let prelude : PacketTranslator × Nat :=
    match packet with
    | .updateEntityPositionAndRotation entityId _ _ _ yaw pitch _
    | .updateEntityRotation entityId yaw pitch _ =>
      match t.entityPositions ⟨entityId⟩ with
      | some oldPos =>
        (t.registerEntityPosition ⟨entityId⟩ { oldPos with pitch := pitch, yaw := yaw }, 0)
      | none => (t, 1)
    | _ => (t, 0)
  let t' := prelude.1
  let warns := prelude.2
  match packet with
  | .spawnEntity entityId _ _ x y z pitch yaw _ _ _ _ _ =>
    (none, t'.registerEntityPosition ⟨entityId⟩
      { x := x, y := y, z := z, pitch := pitch, yaw := yaw }, warns)
  | .spawnExperienceOrb entityId x y z _ =>
    (none, t'.registerEntityPosition ⟨entityId⟩
      { x := x, y := y, z := z, pitch := 0, yaw := 0 }, warns)
  | .teleportEntity entityId x y z yaw pitch _ =>
    (none, t'.registerEntityPosition ⟨entityId⟩
      { x := x, y := y, z := z, pitch := pitch, yaw := yaw }, warns)
  | .updateEntityPosition entityId deltaX deltaY deltaZ onGround
  | .updateEntityPositionAndRotation entityId deltaX deltaY deltaZ _ _ onGround =>
    match t'.entityPositions ⟨entityId⟩ with
    | none => (none, t', warns + 1)
    | some oldPos =>
      let newPos := oldPos.addDelta { dx := deltaX, dy := deltaY, dz := deltaZ }
      (some (.teleportEntity entityId newPos.x newPos.y newPos.z
          newPos.yaw newPos.pitch onGround),
        t'.registerEntityPosition ⟨entityId⟩ newPos, warns)
  | .removeEntities entities =>
    (none, entities.foldl (fun acc entityId => acc.unloadEntity ⟨entityId⟩) t', warns)
  | .respawn _ => (none, t'.clearEntities, warns)
  | _ => (none, t', warns)

/-! ## Stream allocation (`src/stream_allocation.rs`)

`AllocationChoice` records which arm of
`AllocateStream<side::Server>::allocate_stream_for` a packet takes: one
of the three always-open shared streams, a freshly opened keepalive
stream, a keyed per-chunk or per-entity stream (identified by its cache
key), or an unreliable sequence.  The stream handles themselves are I/O
objects; two packets go to the same QUIC stream (until idle eviction)
exactly when their choices are equal. -/

inductive AllocationChoice where
  | chatStream
  | newKeepaliveStream
  | chunkStream
  | blockUpdateStream (chunk : ChunkPosition)
  | entityStream (id : EntityId)
  | miscStream
  | unreliableSequence (key : SequenceKey)
  deriving DecidableEq, Repr

/-- Models `AllocateStream<side::Server>::allocate_stream_for`, arm for
arm in source order. -/
def allocateStreamFor (packet : ServerPlayPacket) : AllocationChoice :=
  match packet with
  | .chatSuggestions _ | .disguisedChatMessage _ | .playerChatMessage _
  | .systemChatMessage _ | .bossBar _ | .clearTitles _ | .commandSuggestions _
  | .deleteMessage _ | .setActionBarText _ | .setSubtitleText _
  | .setTitleText _ | .setTitleAnimationTimes _ => .chatStream
  | .particle _ | .explosion _ | .soundEffect _ | .stopSound _ | .setHealth _
  | .keepAlive _ | .ping _ | .pingResponse _ => .newKeepaliveStream
  | .unloadChunk _ _ | .chunkAndLightData _ _ _ | .updateLight _ _ _
  | .chunkBatchFinished _ | .chunkBatchStart _ | .chunkBiomes _ => .chunkStream
  | .updateSectionBlocks chunkSectionPosition _ =>
    .blockUpdateStream (sectionChunkPosition chunkSectionPosition)
  | .blockUpdate position _ => .blockUpdateStream position.chunk
  | .entityAnimation entityId _ | .entityEvent entityId _ | .hurtAnimation entityId _
  | .setHeadRotation entityId _ | .entityEffect entityId _ | .damageEvent entityId _ =>
    .entityStream ⟨entityId⟩
  | .removeEntities [entityId] => .entityStream ⟨entityId⟩
  | .updateEntityRotation entityId _ _ _
  | .updateEntityPositionAndRotation entityId _ _ _ _ _ _
  | .updateEntityPosition entityId _ _ _ _
  | .teleportEntity entityId _ _ _ _ _ _ =>
    .unreliableSequence (.entityPosition ⟨entityId⟩)
  | .setEntityVelocity entityId _ _ _ =>
    .unreliableSequence (.entityVelocity ⟨entityId⟩)
  | _ => .miscStream

/-! ## The gateway-to-client Play send pipeline
(`QuicPacketIo::send_packet`, `src/proxy.rs` lines 272–288)

The packet is first offered to the translator; the result of
`translate_packet` is combined with the original by `unwrap_or`, so a
`None` from the translator forwards the original packet.  The combined
packet is then allocated to a stream or sequence and sent. -/

structure SendOutcome where
  forwarded : ServerPlayPacket
  allocation : AllocationChoice
  translator : PacketTranslator
  warnings : Nat

def quicSendPacket (t : PacketTranslator) (packet : ServerPlayPacket) : SendOutcome :=
  let r := t.translatePacket packet
  let forwarded := r.1.getD packet
  { forwarded := forwarded
    allocation := allocateStreamFor forwarded
    translator := r.2.1
    warnings := r.2.2 }

/-! ## Helper lemmas -/


theorem lor_of_lt_two_pow {m a : Nat} (b : Nat) (ha : a < 2 ^ m) :
    a ||| 2 ^ m * b = a + 2 ^ m * b := by
  apply Nat.eq_of_testBit_eq
  intro i
  rw [Nat.testBit_lor]
  simp only [Nat.testBit_to_div_mod]
  rcases Nat.lt_or_ge i m with h | h
  · obtain ⟨k, rfl⟩ : ∃ k, m = i + (k + 1) := ⟨m - i - 1, by omega⟩
    have hsplit : 2 ^ (i + (k + 1)) * b = 2 ^ (k + 1) * b * 2 ^ i := by
      rw [pow_add]; ring
    have e1 : (a + 2 ^ (i + (k + 1)) * b) / 2 ^ i = a / 2 ^ i + 2 ^ (k + 1) * b := by
      rw [hsplit]; exact Nat.add_mul_div_right _ _ (by positivity)
    have e2 : 2 ^ (i + (k + 1)) * b / 2 ^ i = 2 ^ (k + 1) * b := by
      rw [hsplit]; exact Nat.mul_div_cancel _ (by positivity)
    rw [e1, e2]
    have h2 : 2 ^ (k + 1) * b = 2 * (2 ^ k * b) := by ring
    rw [h2]
    generalize 2 ^ k * b = c
    generalize a / 2 ^ i = d
    have h3 : (d + 2 * c) % 2 = d % 2 := by omega
    have h4 : 2 * c % 2 = 0 := by omega
    rw [h3, h4]
    simp
  · obtain ⟨j, rfl⟩ : ∃ j, i = m + j := ⟨i - m, by omega⟩
    have hpm : (0 : Nat) < 2 ^ m := by positivity
    have hsplit : (2 : Nat) ^ (m + j) = 2 ^ m * 2 ^ j := pow_add 2 m j
    have e1 : (a + 2 ^ m * b) / 2 ^ (m + j) = b / 2 ^ j := by
      rw [hsplit, ← Nat.div_div_eq_div_mul, Nat.mul_comm (2 ^ m) b,
        Nat.add_mul_div_right _ _ hpm, Nat.div_eq_of_lt ha, Nat.zero_add]
    have e2 : 2 ^ m * b / 2 ^ (m + j) = b / 2 ^ j := by
      rw [hsplit, ← Nat.div_div_eq_div_mul, Nat.mul_div_cancel_left _ hpm]
    have e3 : a / 2 ^ (m + j) = 0 :=
      Nat.div_eq_of_lt (lt_of_lt_of_le ha (Nat.pow_le_pow_right (by omega) (by omega)))
    rw [e1, e2, e3]
    simp

theorem readVarIntAux_writeVarIntAux (u : Nat) : ∀ (k acc : Nat) (extra : List Nat),
    k ≤ 4 → u < 2 ^ (32 - 7 * k) → acc < 2 ^ (7 * k) →
    readVarIntAux (writeVarIntAux u ++ extra) k acc
      = .ok (sign32 (acc + u * 2 ^ (7 * k)), extra) := by
  induction u using Nat.strong_induction_on with
  | _ u IH =>
    intro k acc extra hk hu hacc
    rw [writeVarIntAux]
    by_cases h : u < 128
    · rw [if_pos h]
      simp only [List.cons_append, List.nil_append, readVarIntAux]
      have hmod32 : 7 * k % 32 = 7 * k := Nat.mod_eq_of_lt (by omega)
      have humod : u % 128 = u := Nat.mod_eq_of_lt h
      have hcontrib : u * 2 ^ (7 * k) < 2 ^ 32 := by
        calc u * 2 ^ (7 * k) < 2 ^ (32 - 7 * k) * 2 ^ (7 * k) := by
              exact Nat.mul_lt_mul_of_lt_of_le hu (le_refl _) (by positivity)
        _ = 2 ^ 32 := by
              rw [← pow_add, show 32 - 7 * k + 7 * k = 32 from by omega]
      have hacc' : acc ||| u % 128 * 2 ^ (7 * k % 32) % 2 ^ 32 = acc + u * 2 ^ (7 * k) := by
        rw [humod, hmod32, Nat.mod_eq_of_lt hcontrib, Nat.mul_comm u (2 ^ (7 * k)),
          lor_of_lt_two_pow u hacc, Nat.mul_comm (2 ^ (7 * k)) u]
      rw [if_neg (by omega), if_pos (by omega : u % 256 < 128), hacc']
      rfl
    · rw [if_neg h]
      have hk3 : k ≤ 3 := by
        by_contra hk4
        have hks : k = 4 := by omega
        subst hks
        have : u < 16 := by simpa using hu
        omega
      simp only [List.cons_append, readVarIntAux]
      have hmod32 : 7 * k % 32 = 7 * k := Nat.mod_eq_of_lt (by omega)
      have hbmod : (u % 128 + 128) % 128 = u % 128 := by omega
      have hcontrib : u % 128 * 2 ^ (7 * k) < 2 ^ 32 := by
        calc u % 128 * 2 ^ (7 * k) < 128 * 2 ^ (7 * k) := by
              exact Nat.mul_lt_mul_of_lt_of_le (by omega) (le_refl _) (by positivity)
        _ ≤ 128 * 2 ^ 21 := by
              have : (2:Nat) ^ (7 * k) ≤ 2 ^ 21 := Nat.pow_le_pow_right (by omega) (by omega)
              omega
        _ < 2 ^ 32 := by norm_num
      have hacc' : acc ||| (u % 128 + 128) % 128 * 2 ^ (7 * k % 32) % 2 ^ 32
          = acc + u % 128 * 2 ^ (7 * k) := by
        rw [hbmod, hmod32, Nat.mod_eq_of_lt hcontrib, Nat.mul_comm (u % 128) (2 ^ (7 * k)),
          lor_of_lt_two_pow (u % 128) hacc, Nat.mul_comm (2 ^ (7 * k)) (u % 128)]
      rw [if_neg (by omega), if_neg (by omega), hacc']
      have hrec := IH (u / 128) (Nat.div_lt_self (by omega) (by omega)) (k + 1)
        (acc + u % 128 * 2 ^ (7 * k)) extra (by omega)
        (by
          have hmul : (2:Nat) ^ (32 - 7 * (k + 1)) * 128 = 2 ^ (32 - 7 * k) := by
            rw [show (128:Nat) = 2 ^ 7 from rfl, ← pow_add,
              show 32 - 7 * (k + 1) + 7 = 32 - 7 * k from by omega]
          exact Nat.div_lt_of_lt_mul (by omega))
        (by
          have hpow : (2:Nat) ^ (7 * (k + 1)) = 2 ^ (7 * k) * 2 ^ 7 := by
            rw [Nat.mul_succ, pow_add]
          have hb : u % 128 ≤ 2 ^ 7 - 1 := by omega
          have hstep : u % 128 * 2 ^ (7 * k) ≤ (2 ^ 7 - 1) * 2 ^ (7 * k) :=
            Nat.mul_le_mul_right _ hb
          have h0 : (0:Nat) < 2 ^ (7 * k) := by positivity
          calc acc + u % 128 * 2 ^ (7 * k) < 2 ^ (7 * k) + (2 ^ 7 - 1) * 2 ^ (7 * k) := by omega
          _ = 2 ^ (7 * (k + 1)) := by rw [hpow]; omega)
      have heq : acc + u % 128 * 2 ^ (7 * k) + u / 128 * 2 ^ (7 * (k + 1))
          = acc + u * 2 ^ (7 * k) := by
        have hu128 : u = 128 * (u / 128) + u % 128 := (Nat.div_add_mod u 128).symm
        have hpow : (2:Nat) ^ (7 * (k + 1)) = 2 ^ (7 * k) * 128 := by
          rw [show (128:Nat) = 2 ^ 7 from rfl, Nat.mul_succ, pow_add]
        rw [hpow]
        conv_rhs => rw [hu128]
        ring
      exact hrec.trans (by rw [heq])


theorem sign32_u32OfI32 (x : Int) (h1 : -2 ^ 31 ≤ x) (h2 : x < 2 ^ 31) :
    sign32 (u32OfI32 x) = x := by
  unfold sign32 u32OfI32
  have e32 : (2:Int) ^ 32 = 4294967296 := by norm_num
  have e31n : (2:Nat) ^ 31 = 2147483648 := by norm_num
  rw [e32, e31n] at *
  split <;> omega

theorem u32OfI32_lt (x : Int) : u32OfI32 x < 2 ^ 32 := by
  unfold u32OfI32
  have e32 : (2:Int) ^ 32 = 4294967296 := by norm_num
  have e32n : (2:Nat) ^ 32 = 4294967296 := by norm_num
  rw [e32, e32n]
  omega

theorem readVarInt_writeVarInt (x : Int) (extra : List Nat)
    (h1 : -2 ^ 31 ≤ x) (h2 : x < 2 ^ 31) :
    readVarInt (writeVarInt x ++ extra) = .ok (x, extra) := by
  unfold readVarInt writeVarInt
  rw [readVarIntAux_writeVarIntAux (u32OfI32 x) 0 0 extra (by omega)
    (by simpa using u32OfI32_lt x) (by norm_num)]
  rw [Nat.zero_add, pow_zero, Nat.mul_one, sign32_u32OfI32 x h1 h2]

theorem writeVarIntAux_length : ∀ (m : Nat) (u : Nat), u < 2 ^ (7 * (m + 1)) →
    (writeVarIntAux u).length ≤ m + 1 := by
  intro m
  induction m with
  | zero =>
    intro u hu
    rw [writeVarIntAux, if_pos (by norm_num at hu; omega)]
    simp
  | succ m IH =>
    intro u hu
    rw [writeVarIntAux]
    by_cases h : u < 128
    · rw [if_pos h]; simp
    · rw [if_neg h]
      have hd : u / 128 < 2 ^ (7 * (m + 1)) := by
        apply Nat.div_lt_of_lt_mul
        have hpw : (2:Nat) ^ (7 * (m + 1)) * 128 = 2 ^ (7 * (m + 1 + 1)) := by
          rw [show (128:Nat) = 2 ^ 7 from rfl, ← pow_add,
            show 7 * (m + 1) + 7 = 7 * (m + 1 + 1) from by ring]
        omega
      have := IH (u / 128) hd
      simp only [List.length_cons]
      omega

theorem writeVarInt_length (x : Int) : (writeVarInt x).length ≤ 5 := by
  unfold writeVarInt
  exact writeVarIntAux_length 4 (u32OfI32 x)
    (lt_of_lt_of_le (u32OfI32_lt x) (by norm_num))

theorem readVarInt_tooLong (b0 b1 b2 b3 b4 b5 : Nat) (rest : List Nat)
    (h0 : 128 ≤ b0 % 256) (h1 : 128 ≤ b1 % 256) (h2 : 128 ≤ b2 % 256)
    (h3 : 128 ≤ b3 % 256) (h4 : 128 ≤ b4 % 256) :
    readVarInt (b0 :: b1 :: b2 :: b3 :: b4 :: b5 :: rest) = .error .varIntTooLong := by
  simp only [readVarInt, readVarIntAux, if_neg (by omega : ¬(0 + 1 > 5)),
    if_neg (Nat.not_lt.mpr h0), if_neg (by omega : ¬(1 + 1 > 5)),
    if_neg (Nat.not_lt.mpr h1), if_neg (by omega : ¬(2 + 1 > 5)),
    if_neg (Nat.not_lt.mpr h2), if_neg (by omega : ¬(3 + 1 > 5)),
    if_neg (Nat.not_lt.mpr h3), if_neg (by omega : ¬(4 + 1 > 5)),
    if_neg (Nat.not_lt.mpr h4), if_pos (by omega : 5 + 1 > 5)]


/-- Claim C8 (amended): for every `i32` value, decoding the bytes
produced by `write_var_int` yields the value back using at most five
bytes; and any byte sequence of length at least six whose first five
bytes all have the continuation bit set fails with `VarIntTooLong`. -/
theorem c8_varint_roundtrip_amended :
    (∀ (x : Int) (extra : List Nat), -2 ^ 31 ≤ x → x < 2 ^ 31 →
        readVarInt (writeVarInt x ++ extra) = .ok (x, extra) ∧ (writeVarInt x).length ≤ 5)
    ∧ (∀ (b0 b1 b2 b3 b4 b5 : Nat) (rest : List Nat),
        128 ≤ b0 % 256 → 128 ≤ b1 % 256 → 128 ≤ b2 % 256 →
        128 ≤ b3 % 256 → 128 ≤ b4 % 256 →
        readVarInt (b0 :: b1 :: b2 :: b3 :: b4 :: b5 :: rest) = .error .varIntTooLong) :=
  ⟨fun x extra h1 h2 => ⟨readVarInt_writeVarInt x extra h1 h2, writeVarInt_length x⟩,
   fun b0 b1 b2 b3 b4 b5 rest h0 h1 h2 h3 h4 =>
     readVarInt_tooLong b0 b1 b2 b3 b4 b5 rest h0 h1 h2 h3 h4⟩

/-- Claim C8, counterexample: a buffer of exactly five continuation
bytes and nothing after them fails with the need-more `EndOfStream`
error (the source reads a sixth byte before declaring the VarInt too
long), not with `VarIntTooLong` as the claim states. -/
theorem c8_exactly_five_continuation_bytes :
    readVarInt [128, 128, 128, 128, 128] = .error (.endOfStream 1)
    ∧ (Except.error (DecodeError.endOfStream 1) : Except DecodeError (Int × List Nat))
        ≠ .error .varIntTooLong := by
  refine ⟨rfl, fun h => ?_⟩
  exact absurd (Except.error.inj h) (by decide)

/-- Claim C8, witness for the amended theorem at concrete inputs. -/
theorem c8_witness :
    (readVarInt (writeVarInt (-2147483648) ++ [7]) = .ok (-2147483648, [7])
      ∧ (writeVarInt (-2147483648)).length ≤ 5)
    ∧ readVarInt [200, 201, 202, 203, 204, 0] = .error .varIntTooLong :=
  ⟨c8_varint_roundtrip_amended.1 (-2147483648) [7] (by norm_num) (by norm_num),
   c8_varint_roundtrip_amended.2 200 201 202 203 204 0 []
     (by norm_num) (by norm_num) (by norm_num) (by norm_num) (by norm_num)⟩


theorem sectionChunkPos_pack (cx cz y : Int)
    (hx1 : -2 ^ 21 ≤ cx) (hx2 : cx < 2 ^ 21)
    (hz1 : -2 ^ 21 ≤ cz) (hz2 : cz < 2 ^ 21) :
    sectionChunkPosition (packSectionPosition cx cz y) = ⟨cx, cz⟩ := by
  unfold sectionChunkPosition packSectionPosition wrap32 wrap64
  rw [ChunkPosition.mk.injEq]
  exact ⟨by omega, by omega⟩

/-- Claim C3: `BlockPosition::chunk` returns the block's offset within
its chunk (`rem_euclid(16)` of x and z) rather than the containing
chunk's coordinate, so any two `BlockUpdate` packets whose positions
agree on x and z modulo 16 — however far apart their chunks — are
allocated to the same per-chunk stream key, while
`UpdateSectionBlocks::chunk_position` extracts true sign-extended
22-bit chunk coordinates; concretely, the block update at (16, 0, 16)
(which lies in chunk (1, 1)) is keyed to the chunk-position key (0, 0)
while a section update for chunk (1, 1) is keyed to (1, 1): the two
keyings disagree for the same chunk. -/
theorem c3_blockupdate_chunk_keying_inconsistent :
    (∀ p : BlockPosition, p.chunk = ⟨p.x % 16, p.z % 16⟩)
    ∧ (∀ (p q : BlockPosition) (d d' : List Nat),
        p.x % 16 = q.x % 16 → p.z % 16 = q.z % 16 →
        allocateStreamFor (.blockUpdate p d) = allocateStreamFor (.blockUpdate q d'))
    ∧ (∀ (cx cz y : Int), -2 ^ 21 ≤ cx → cx < 2 ^ 21 → -2 ^ 21 ≤ cz → cz < 2 ^ 21 →
        sectionChunkPosition (packSectionPosition cx cz y) = ⟨cx, cz⟩)
    ∧ allocateStreamFor (.blockUpdate ⟨16, 0, 16⟩ []) = .blockUpdateStream ⟨0, 0⟩
    ∧ allocateStreamFor (.updateSectionBlocks (packSectionPosition 1 1 0) [])
        = .blockUpdateStream ⟨1, 1⟩
    ∧ ((⟨0, 0⟩ : ChunkPosition) = ⟨1, 1⟩ → False) := by
  refine ⟨fun p => rfl, ?_, ?_, by decide, by decide, by decide⟩
  · intro p q d d' h1 h2
    show AllocationChoice.blockUpdateStream p.chunk = .blockUpdateStream q.chunk
    unfold BlockPosition.chunk
    rw [h1, h2]
  · intro cx cz y hx1 hx2 hz1 hz2
    exact sectionChunkPos_pack cx cz y hx1 hx2 hz1 hz2

/-- Claim C3, witness: two block updates in chunks (0, 0) and
(100, 100) share the same per-chunk stream key, and the section
chunk-position extraction is exact at a negative chunk coordinate. -/
theorem c3_witness :
    allocateStreamFor (.blockUpdate ⟨0, 0, 0⟩ [])
      = allocateStreamFor (.blockUpdate ⟨1600, 64, 1600⟩ [5])
    ∧ sectionChunkPosition (packSectionPosition (-3) 7 2) = ⟨-3, 7⟩ :=
  ⟨c3_blockupdate_chunk_keying_inconsistent.2.1 ⟨0, 0, 0⟩ ⟨1600, 64, 1600⟩ [] [5]
     (by decide) (by decide),
   c3_blockupdate_chunk_keying_inconsistent.2.2.1 (-3) 7 2
     (by decide) (by decide) (by decide) (by decide)⟩

/-- Claim C4: packing (0, −1, 0) per the spec's layout and decoding it
with `read_block_position` yields y = 4095, not −1: the y field is
taken as `value & 0xFFF` with no sign extension (while x and z at
(−123, −2, 456) show that those two fields are sign-extended). -/
theorem c4_blockposition_y_not_sign_extended :
    readBlockPosition (packBlockPosition 0 (-1) 0) = ⟨0, 4095, 0⟩
    ∧ readBlockPosition (packBlockPosition (-123) (-2) 456) = ⟨-123, 4094, 456⟩
    ∧ ((4095 : Int) = -1 → False) :=
  ⟨by decide, by decide, by decide⟩

/-- Claim C6: the four motion packet kinds are always allocated to the
unreliable sequence `EntityPosition(entity_id)` and `SetEntityVelocity`
to `EntityVelocity(entity_id)`; since the result is an
`unreliableSequence` allocation in every case, none of the five kinds
is ever given a stream allocation. -/
theorem c6_motion_packets_use_sequences :
    (∀ (e dx dy dz : Int) (og : Bool),
        allocateStreamFor (.updateEntityPosition e dx dy dz og)
          = .unreliableSequence (.entityPosition ⟨e⟩))
    ∧ (∀ (e dx dy dz : Int) (yaw pitch : ℚ) (og : Bool),
        allocateStreamFor (.updateEntityPositionAndRotation e dx dy dz yaw pitch og)
          = .unreliableSequence (.entityPosition ⟨e⟩))
    ∧ (∀ (e : Int) (yaw pitch : ℚ) (og : Bool),
        allocateStreamFor (.updateEntityRotation e yaw pitch og)
          = .unreliableSequence (.entityPosition ⟨e⟩))
    ∧ (∀ (e : Int) (x y z yaw pitch : ℚ) (og : Bool),
        allocateStreamFor (.teleportEntity e x y z yaw pitch og)
          = .unreliableSequence (.entityPosition ⟨e⟩))
    ∧ (∀ (e vx vy vz : Int),
        allocateStreamFor (.setEntityVelocity e vx vy vz)
          = .unreliableSequence (.entityVelocity ⟨e⟩)) :=
  ⟨fun _ _ _ _ _ => rfl, fun _ _ _ _ _ _ _ => rfl, fun _ _ _ _ => rfl,
   fun _ _ _ _ _ _ _ => rfl, fun _ _ _ _ => rfl⟩


theorem deliveredOrdinals_cons_ge (s : Sequence) (o : Nat) (rest : List Nat)
    (h : s.newestReceived ≤ o) :
    deliveredOrdinals s (o :: rest)
      = o :: deliveredOrdinals { s with newestReceived := o } rest := by
  simp [deliveredOrdinals, Sequence.receivePacket, h]

theorem deliveredOrdinals_cons_lt (s : Sequence) (o : Nat) (rest : List Nat)
    (h : o < s.newestReceived) :
    deliveredOrdinals s (o :: rest) = deliveredOrdinals s rest := by
  simp [deliveredOrdinals, Sequence.receivePacket, Nat.not_le.mpr h]

theorem deliveredOrdinals_mem : ∀ (l : List Nat) (s : Sequence) (x : Nat),
    x ∈ deliveredOrdinals s l → s.newestReceived ≤ x ∧ x ∈ l := by
  intro l
  induction l with
  | nil => intro s x hx; simp [deliveredOrdinals] at hx
  | cons o rest IH =>
    intro s x hx
    by_cases h : s.newestReceived ≤ o
    · rw [deliveredOrdinals_cons_ge s o rest h] at hx
      simp only [List.mem_cons] at hx ⊢
      rcases hx with rfl | hx
      · exact ⟨h, Or.inl rfl⟩
      · have hr := IH _ _ hx
        exact ⟨le_trans h hr.1, Or.inr hr.2⟩
    · rw [deliveredOrdinals_cons_lt s o rest (by omega)] at hx
      have hr := IH _ _ hx
      exact ⟨hr.1, List.mem_cons_of_mem o hr.2⟩

theorem deliveredOrdinals_pairwise : ∀ (l : List Nat) (s : Sequence), l.Nodup →
    (deliveredOrdinals s l).Pairwise (· < ·) := by
  intro l
  induction l with
  | nil => intro s _; simp [deliveredOrdinals]
  | cons o rest IH =>
    intro s hnd
    rw [List.nodup_cons] at hnd
    by_cases h : s.newestReceived ≤ o
    · rw [deliveredOrdinals_cons_ge s o rest h]
      rw [List.pairwise_cons]
      refine ⟨fun x hx => ?_, IH _ hnd.2⟩
      have hm := deliveredOrdinals_mem rest _ x hx
      have hxo : x ≠ o := fun he => hnd.1 (he ▸ hm.2)
      have hle : o ≤ x := hm.1
      omega
    · rw [deliveredOrdinals_cons_lt s o rest (by omega)]
      exact IH _ hnd.2

theorem deliveredOrdinals_sublist : ∀ (l : List Nat) (s : Sequence),
    (deliveredOrdinals s l).Sublist l := by
  intro l
  induction l with
  | nil => intro s; simp [deliveredOrdinals]
  | cons o rest IH =>
    intro s
    by_cases h : s.newestReceived ≤ o
    · rw [deliveredOrdinals_cons_ge s o rest h]
      exact List.Sublist.cons₂ o (IH _)
    · rw [deliveredOrdinals_cons_lt s o rest (by omega)]
      exact List.Sublist.cons o (IH _)

theorem recvDatagram_other_key (table : SequenceTable) (k k' : SequenceKey) (o : Nat)
    (hne : k' ≠ k) : (recvDatagram table k o).2 k' = table k' := by
  unfold recvDatagram
  simp only [if_neg hne]

/-- Claim C5: the receiver's high-water behaviour (`<` discards, `≥`
updates and delivers); for any arrival order of pairwise-distinct
ordinals on a single key, the delivered ordinals form a strictly
increasing subsequence of the arrivals (so arrivals (0, 2, 1, 3)
deliver 0, 2, 3 and drop 1); and processing a datagram on one key —
delivered or dropped — leaves every other key's sequence state, and
hence its delivery outcomes, unchanged. -/
theorem c5_sequence_high_water :
    (∀ (s : Sequence) (o : Nat),
      (o < s.newestReceived → s.receivePacket o = (false, s))
      ∧ (s.newestReceived ≤ o →
          s.receivePacket o = (true, { s with newestReceived := o })))
    ∧ (∀ (s : Sequence) (l : List Nat), l.Nodup →
        (deliveredOrdinals s l).Pairwise (· < ·) ∧ (deliveredOrdinals s l).Sublist l)
    ∧ deliveredOrdinals Sequence.new [0, 2, 1, 3] = [0, 2, 3]
    ∧ (∀ (table : SequenceTable) (k k' : SequenceKey) (o o' : Nat), k' ≠ k →
        ((recvDatagram table k o).2 k' = table k'
          ∧ (recvDatagram ((recvDatagram table k o).2) k' o').1
              = (recvDatagram table k' o').1)) := by
  refine ⟨fun s o => ⟨fun h => ?_, fun h => ?_⟩, fun s l hnd => ?_, by decide, ?_⟩
  · rw [Sequence.receivePacket, if_neg (by omega)]
  · rw [Sequence.receivePacket, if_pos h]
  · exact ⟨deliveredOrdinals_pairwise l s hnd, deliveredOrdinals_sublist l s⟩
  · intro table k k' o o' hne
    refine ⟨recvDatagram_other_key table k k' o hne, ?_⟩
    show (((recvDatagram table k o).2 k').receivePacket o').1
      = ((table k').receivePacket o').1
    rw [recvDatagram_other_key table k k' o hne]

/-- Claim C5, witness at concrete inputs. -/
theorem c5_witness :
    ((Sequence.mk 0 5).receivePacket 3 = (false, Sequence.mk 0 5)
      ∧ (Sequence.mk 0 5).receivePacket 5 = (true, Sequence.mk 0 5))
    ∧ ((deliveredOrdinals Sequence.new [0, 2, 1, 3]).Pairwise (· < ·)
      ∧ (deliveredOrdinals Sequence.new [0, 2, 1, 3]).Sublist [0, 2, 1, 3])
    ∧ ((recvDatagram (fun _ => Sequence.new) .thePlayerPosition 4).2
          (.entityVelocity ⟨1⟩) = Sequence.new
      ∧ (recvDatagram ((recvDatagram (fun _ => Sequence.new) .thePlayerPosition 4).2)
            (.entityVelocity ⟨1⟩) 0).1
          = (recvDatagram (fun _ => Sequence.new) (.entityVelocity ⟨1⟩) 0).1) :=
  ⟨⟨(c5_sequence_high_water.1 (Sequence.mk 0 5) 3).1 (by decide),
    (c5_sequence_high_water.1 (Sequence.mk 0 5) 5).2 (by decide)⟩,
   c5_sequence_high_water.2.1 Sequence.new [0, 2, 1, 3] (by decide),
   c5_sequence_high_water.2.2.2 (fun _ => Sequence.new) .thePlayerPosition
     (.entityVelocity ⟨1⟩) 4 0 (by decide)⟩


/-- Claim C2, counterexample: with an empty position table (as after
`RemoveEntities` of every id), an `UpdateEntityPosition` for entity 7
produces no synthetic `TeleportEntity` and logs a warning — but
`send_packet` combines the translator's `None` with `unwrap_or`, so the
original relative packet IS forwarded (on the entity's unreliable
sequence), contradicting the claim's "the relative packet is not
forwarded to the client". -/
theorem c2_unknown_entity_relative_forwarded :
    (PacketTranslator.new.translatePacket (.updateEntityPosition 7 1 1 1 true)).1 = none
    ∧ (PacketTranslator.new.translatePacket (.updateEntityPosition 7 1 1 1 true)).2.2 = 1
    ∧ (quicSendPacket PacketTranslator.new (.updateEntityPosition 7 1 1 1 true)).forwarded
        = .updateEntityPosition 7 1 1 1 true :=
  ⟨rfl, rfl, rfl⟩

/-- Claim C2 (amended): when the entity's position is unknown, the
translator emits no synthetic `TeleportEntity`, leaves its table
unchanged and logs a warning (two warnings for the rotation-bearing
variant, whose rotation-refresh lookup also misses); `send_packet` then
forwards the original relative packet unchanged, allocated to the
`EntityPosition(entity_id)` unreliable sequence. -/
theorem c2_unknown_entity_passthrough (t : PacketTranslator) (e dx dy dz : Int)
    (yaw pitch : ℚ) (og : Bool) (h : t.entityPositions ⟨e⟩ = none) :
    (t.translatePacket (.updateEntityPosition e dx dy dz og) = (none, t, 1)
      ∧ (quicSendPacket t (.updateEntityPosition e dx dy dz og)).forwarded
          = .updateEntityPosition e dx dy dz og
      ∧ (quicSendPacket t (.updateEntityPosition e dx dy dz og)).allocation
          = .unreliableSequence (.entityPosition ⟨e⟩))
    ∧ (t.translatePacket (.updateEntityPositionAndRotation e dx dy dz yaw pitch og)
          = (none, t, 2)
      ∧ (quicSendPacket t
            (.updateEntityPositionAndRotation e dx dy dz yaw pitch og)).forwarded
          = .updateEntityPositionAndRotation e dx dy dz yaw pitch og
      ∧ (quicSendPacket t
            (.updateEntityPositionAndRotation e dx dy dz yaw pitch og)).allocation
          = .unreliableSequence (.entityPosition ⟨e⟩)) := by
  have h1 : t.translatePacket (.updateEntityPosition e dx dy dz og) = (none, t, 1) := by
    unfold PacketTranslator.translatePacket
    simp only [h]
  have h2 : t.translatePacket (.updateEntityPositionAndRotation e dx dy dz yaw pitch og)
      = (none, t, 2) := by
    unfold PacketTranslator.translatePacket
    simp only [h]
  refine ⟨⟨h1, ?_, ?_⟩, h2, ?_, ?_⟩
  · show ((t.translatePacket (.updateEntityPosition e dx dy dz og)).1).getD _ = _
    rw [h1]
    rfl
  · show allocateStreamFor (((t.translatePacket
        (.updateEntityPosition e dx dy dz og)).1).getD _) = _
    rw [h1]
    rfl
  · show ((t.translatePacket
        (.updateEntityPositionAndRotation e dx dy dz yaw pitch og)).1).getD _ = _
    rw [h2]
    rfl
  · show allocateStreamFor (((t.translatePacket
        (.updateEntityPositionAndRotation e dx dy dz yaw pitch og)).1).getD _) = _
    rw [h2]
    rfl

/-- Claim C2, witness for the amended theorem on a fresh translator. -/
theorem c2_witness :
    (PacketTranslator.new.translatePacket (.updateEntityPosition 7 1 1 1 true)
        = (none, PacketTranslator.new, 1)
      ∧ (quicSendPacket PacketTranslator.new
            (.updateEntityPosition 7 1 1 1 true)).forwarded
          = .updateEntityPosition 7 1 1 1 true
      ∧ (quicSendPacket PacketTranslator.new
            (.updateEntityPosition 7 1 1 1 true)).allocation
          = .unreliableSequence (.entityPosition ⟨7⟩))
    ∧ (PacketTranslator.new.translatePacket
          (.updateEntityPositionAndRotation 7 1 1 1 0 0 true)
        = (none, PacketTranslator.new, 2)
      ∧ (quicSendPacket PacketTranslator.new
            (.updateEntityPositionAndRotation 7 1 1 1 0 0 true)).forwarded
          = .updateEntityPositionAndRotation 7 1 1 1 0 0 true
      ∧ (quicSendPacket PacketTranslator.new
            (.updateEntityPositionAndRotation 7 1 1 1 0 0 true)).allocation
          = .unreliableSequence (.entityPosition ⟨7⟩)) :=
  c2_unknown_entity_passthrough PacketTranslator.new 7 1 1 1 0 0 true rfl


theorem writeVarIntAux_small (u : Nat) (h : u < 128) : writeVarIntAux u = [u] := by
  rw [writeVarIntAux, if_pos h]

theorem writeVarInt_two : writeVarInt 2 = [2] := by
  have h : u32OfI32 2 = 2 := by decide
  rw [writeVarInt, h, writeVarIntAux_small 2 (by norm_num)]

theorem varIntSize_zero : varIntSize 0 = 1 := by
  have h : u32OfI32 0 = 0 := by decide
  rw [varIntSize, writeVarInt, h, writeVarIntAux_small 0 (by norm_num)]
  rfl

/-- Claim C1: with compression enabled at threshold 2, encoding a packet
whose plain encoding is the single byte `1` (length 1 < threshold)
emits only the outer length VarInt `[2]`: the data-length VarInt(0) and
the plain byte are never appended (the compression branch of
`encode_packet` writes only `write_var_int(var_int_size(data_length) +
compressed_data.len())` into its buffer), so the produced frame is not
`[2, 0, 1]` as the claim requires, and feeding it back to a
compression-enabled `decode_packet` yields the silent need-more outcome
forever instead of the original packet. -/
theorem c1_compressed_encode_drops_payload :
    (∀ deflate : List Nat → List Nat,
      encodePacketVanilla (some 2) deflate [1] = .ok [2])
    ∧ (∀ (inflate : List Nat → Except CodecError (List Nat))
        (pd : List Nat → Except DecodeError Nat),
      decodePacketVanilla true inflate pd [2] = .ok (none, [2]))
    ∧ ([2] : List Nat) ≠ writeVarInt 2 ++ 0 :: [1] := by
  refine ⟨fun deflate => ?_, fun _ _ => rfl, ?_⟩
  · unfold encodePacketVanilla
    rw [if_neg (by norm_num)]
    simp only
    rw [if_neg (by norm_num : ¬List.length [1] ≥ 2), if_neg (by norm_num)]
    rw [varIntSize_zero]
    norm_num [writeVarInt_two]
  · rw [writeVarInt_two]
    decide

/-- Claim C7: called on an empty read buffer, or on a buffer holding
only an incomplete length VarInt (the single continuation byte `128`),
both `VanillaCodec::decode_packet` and `OptimizedCodec::decode_packet`
propagate the `EndOfStream` failure of `read_var_int()?` as an error
instead of returning the silent need-more `Ok(None)`; the need-more
outcome is produced only once the length VarInt is complete (buffer
`[3, 1]`). -/
theorem c7_decode_errors_on_incomplete_length :
    (∀ (c : Bool) (inflate : List Nat → Except CodecError (List Nat))
        (pd : List Nat → Except DecodeError Nat),
      decodePacketVanilla c inflate pd [] = .error (.decode (.endOfStream 1))
      ∧ decodePacketVanilla c inflate pd [128] = .error (.decode (.endOfStream 1))
      ∧ decodePacketVanilla c inflate pd [3, 1] = .ok (none, [3, 1]))
    ∧ (∀ (decompress : List Nat → Except CodecError (List Nat))
        (pd : List Nat → Except DecodeError Nat),
      decodePacketOptimized decompress pd [] = .error (.decode (.endOfStream 1))
      ∧ decodePacketOptimized decompress pd [128] = .error (.decode (.endOfStream 1))
      ∧ decodePacketOptimized decompress pd [3, 1] = .ok (none, [3, 1])) :=
  ⟨fun _ _ _ => ⟨rfl, rfl, rfl⟩, fun _ _ => ⟨rfl, rfl, rfl⟩⟩

/-- Claim C10: any frame whose declared length VarInt exceeds 1 MiB is
rejected with an error by both codecs, whatever bytes follow the length
and before anything is consumed from the read buffer or decoded from
the frame contents. -/
theorem c10_oversized_frames_rejected (L : Int) (buffer : List Nat) (c : Bool)
    (inflate : List Nat → Except CodecError (List Nat))
    (pd pd' : List Nat → Except DecodeError Nat)
    (decompress : List Nat → Except CodecError (List Nat))
    (h1 : 2 ^ 20 < L) (h2 : L < 2 ^ 31) :
    decodePacketVanilla c inflate pd (writeVarInt L ++ buffer)
      = .error (.lengthExceedsMaximum L.toNat)
    ∧ decodePacketOptimized decompress pd' (writeVarInt L ++ buffer)
      = .error (.lengthExceedsMaximum L.toNat) := by
  have hr := readVarInt_writeVarInt L buffer (by omega) (by omega)
  unfold decodePacketVanilla decodePacketOptimized
  rw [hr]
  simp only [BUFFER_LIMIT]
  rw [if_neg (by omega : ¬L < 0), if_neg (by omega : ¬L < 0),
    if_pos (by omega : L.toNat > 1024 * 1024), if_pos (by omega : L.toNat > 1024 * 1024)]
  exact ⟨rfl, rfl⟩

/-- Claim C10, witness at the smallest over-limit length. -/
theorem c10_witness :
    decodePacketVanilla true (fun _ => .error .compressionFailed)
        (fun _ => (.error .stringTooLong : Except DecodeError Nat))
        (writeVarInt 1048577 ++ [])
      = .error (.lengthExceedsMaximum (Int.toNat 1048577))
    ∧ decodePacketOptimized (fun _ => .error .compressionFailed)
        (fun _ => (.error .stringTooLong : Except DecodeError Nat))
        (writeVarInt 1048577 ++ [])
      = .error (.lengthExceedsMaximum (Int.toNat 1048577)) :=
  c10_oversized_frames_rejected 1048577 [] true _ _ _ _ (by norm_num) (by norm_num)


theorem writeAngle_eval_360 : writeAngle 360 = 255 := by
  have hq : (360 : ℚ) / 360 * 255 = 255 := by norm_num
  have hfl : ⌊(255 : ℚ) + 1 / 2⌋ = 255 := by
    rw [Int.floor_eq_iff]
    constructor <;> norm_num
  rw [writeAngle, hq, roundHalfAway, if_neg (by norm_num), hfl]
  decide

theorem writeAngle_eval_0 : writeAngle 0 = 0 := by
  have hq : (0 : ℚ) / 360 * 255 = 0 := by norm_num
  have hfl : ⌊(0 : ℚ) + 1 / 2⌋ = 0 := by
    rw [Int.floor_eq_iff]
    constructor <;> norm_num
  rw [writeAngle, hq, roundHalfAway, if_neg (by norm_num), hfl]
  decide

/-- Claim C9, counterexample: encoding exactly 360 degrees produces
byte 255, not byte 0 (`360 / 360 * 255 = 255` is exact in `f32`, so the
rational idealisation agrees with the source here; the decoded angle
`255 / 255 * 360 = 360` is the same direction, but the byte is not 0 as
the claim states). -/
theorem c9_write_angle_360_is_255 :
    writeAngle 360 = 255 ∧ (255 : Nat) ≠ 0 :=
  ⟨writeAngle_eval_360, by decide⟩

/-- Claim C9 (amended): for angles between 0 and 360 degrees the
round-trip error is at most 360/256 degrees (indeed at most 180/255);
encoding exactly 0 degrees gives byte 0 and encoding exactly
360 degrees gives byte 255. -/
theorem c9_angle_roundtrip_amended :
    (∀ θ : ℚ, 0 ≤ θ → θ ≤ 360 → |readAngle (writeAngle θ) - θ| ≤ 360 / 256)
    ∧ writeAngle 0 = 0 ∧ writeAngle 360 = 255 := by
  refine ⟨fun θ h0 h360 => ?_, writeAngle_eval_0, writeAngle_eval_360⟩
  set q : ℚ := θ / 360 * 255 with hq
  have hq0 : 0 ≤ q := by positivity
  have hq255 : q ≤ 255 := by
    rw [hq, div_mul_eq_mul_div, div_le_iff₀ (by norm_num : (0:ℚ) < 360)]
    linarith
  have hθ : θ = q * 360 / 255 := by rw [hq]; ring
  have hn0 : 0 ≤ ⌊q + 1/2⌋ := Int.floor_nonneg.mpr (by linarith)
  have hnS : (⌊q + 1/2⌋ : ℚ) ≤ q + 1/2 := Int.floor_le _
  have hnI : q + 1/2 - 1 < (⌊q + 1/2⌋ : ℚ) := Int.sub_one_lt_floor _
  have hn255 : ⌊q + 1/2⌋ ≤ 255 := by
    have hlt : ((⌊q + 1/2⌋ : Int) : ℚ) < 256 := by linarith
    have : (⌊q + 1/2⌋ : Int) < 256 := by exact_mod_cast hlt
    omega
  have hwrite : writeAngle θ = (⌊q + 1/2⌋).toNat := by
    rw [writeAngle, roundHalfAway, if_neg (not_lt.mpr hq0), satU8,
      max_eq_right hn0, min_eq_right hn255]
  rw [hwrite, readAngle]
  have hcast : (((⌊q + 1/2⌋).toNat : Nat) : ℚ) = ((⌊q + 1/2⌋ : Int) : ℚ) := by
    have := Int.toNat_of_nonneg hn0
    exact_mod_cast congrArg (fun z : Int => (z : ℚ)) this
  rw [hcast]
  rw [abs_le]
  constructor
  · rw [hθ]
    linarith
  · rw [hθ]
    linarith

/-- Claim C9, witness for the amended round-trip bound at 100 degrees. -/
theorem c9_witness :
    |readAngle (writeAngle 100) - 100| ≤ 360 / 256 :=
  c9_angle_roundtrip_amended.1 100 (by norm_num) (by norm_num)

end MCQuic
